import Mathlib

/-!
Verification of the habit-tracker core (schedule evaluation, streaks,
success rates, month aggregation, and the SQLite persistence layer) against
its natural-language specification.

Modelling conventions:
* Calendar days are modelled as integers: the proleptic Gregorian ordinal of
  `datetime.date` (`date.toordinal()`), so `d + 1` is the next day and the
  weekday index of an ordinal `d` is `(d + 6) % 7` with Monday = 0
  (ordinal 1, i.e. 0001-01-01, is a Monday).  `date.isoformat()` is injective
  on dates, so a check-in's `day` string is modelled by the corresponding
  ordinal; a malformed day string can never equal `cur.isoformat()` and is
  therefore invisible to the dictionary lookups the metrics perform.
* Python `float` division of the small nonnegative integer counts involved is
  modelled exactly in `ℚ`.
* Python dictionaries built by comprehension are modelled as last-write-wins
  lookups over the underlying list.
-/

namespace HabitTracker

/-- Weekday index of a day ordinal, Monday = 0 .. Sunday = 6, as in
Python's `date.weekday()` (ordinal 1 is a Monday). -/
def pyWeekday (d : ℤ) : ℤ := (d + 6) % 7

/-- A habit record as consumed by the metrics functions: only the
`schedule_type` and `custom_days` keys are read (`habit.get("schedule_type",
"daily")`, `habit.get("custom_days", "")`). -/
structure Habit where
  schedule_type : String
  custom_days : String
deriving DecidableEq, Repr

/-- A check-in record as consumed by the metrics functions: the `day` key
(an ISO date string, modelled by its ordinal) and the `done` flag
(`int(c.get("done", 0))`). -/
structure Checkin where
  day : ℤ
  done : ℤ
deriving DecidableEq, Repr

/-- Python's default `str.strip` whitespace characters. -/
def isPySpace (c : Char) : Bool :=
  c = ' ' ∨ c = '\t' ∨ c = '\n' ∨ c = '\r' ∨ c = '\x0b' ∨ c = '\x0c'

/-- Python `str.strip()` on the character list of a string: drop leading
and trailing whitespace. -/
def pyStrip (l : List Char) : List Char :=
  ((l.dropWhile isPySpace).reverse.dropWhile isPySpace).reverse

/-- Python `str.strip()` as a string-to-string function (for the stripped
columns of the SQLite layer). -/
def pyStripStr (s : String) : String := String.mk (pyStrip s.data)

/-- Python `str.split(",")` on the character list of a string: the comma
never appears in a piece, empty pieces are kept, and the empty string
yields one empty piece. -/
def splitComma : List Char → List (List Char)
  | [] => [[]]
  | c :: rest =>
    if c = ',' then [] :: splitComma rest
    else
      match splitComma rest with
      | [] => [[c]]
      | t :: ts => (c :: t) :: ts

/-- Decimal-digit run of Python `int(str)` after the optional sign: digits
with single underscores allowed between digits (CPython's grammar for
integer strings), accumulating the value. -/
def pyDigitsAux : List Char → ℕ → Option ℕ
  | [], acc => some acc
  | ['_'], _ => none
  | '_' :: c :: rest, acc =>
      if c.isDigit then pyDigitsAux rest (acc * 10 + (c.toNat - 48)) else none
  | c :: rest, acc =>
      if c.isDigit then pyDigitsAux rest (acc * 10 + (c.toNat - 48)) else none

/-- Model of Python `int(p)` on an already-stripped token `p`: an optional
sign followed by a nonempty digit run (underscores between digits allowed);
`none` models the `ValueError` branch. -/
def pyParseInt? (s : List Char) : Option ℤ :=
  match s with
  | [] => none
  | '+' :: c :: rest =>
      if c.isDigit then (pyDigitsAux (c :: rest) 0).map Int.ofNat else none
  | '-' :: c :: rest =>
      if c.isDigit then
        (pyDigitsAux (c :: rest) 0).map (fun n => -(Int.ofNat n))
      else none
  | c :: rest =>
      if c.isDigit then (pyDigitsAux (c :: rest) 0).map Int.ofNat else none

/-- `metrics.parse_custom_days`: convert `'0,1,2'` to `{0,1,2}`.  The
Python `set` is modelled as a duplicate-free list (`List.insert` adds an
element only when absent), all uses being membership tests.  Empty string
gives the empty set; each comma-separated token is stripped, empty tokens
are skipped, tokens that fail `int()` are skipped (`ValueError` caught),
and every successfully parsed integer is added — with no range check. -/
def parse_custom_days (custom_days : String) : List ℤ :=
  let s := pyStrip custom_days.data
  if s = [] then []
  else
    (splitComma s).foldl
      (fun out p =>
        let p := pyStrip p
        if p = [] then out
        else
          match pyParseInt? p with
          | some n => out.insert n
          | none => out)
      []

/-- Ascending insertion of an integer into a sorted list; `foldr` of this
models Python's `sorted` on a duplicate-free list. -/
def insertSorted (a : ℤ) : List ℤ → List ℤ
  | [] => [a]
  | b :: l => if a ≤ b then a :: b :: l else b :: insertSorted a l

/-- `pages/1_Habits.string_to_days`: like `parse_custom_days` but the
collected integers are additionally filtered to `0 ≤ d ≤ 6`, deduplicated
and sorted ascending (`sorted(set([d for d in out if 0 <= d <= 6]))`). -/
def string_to_days (s : String) : List ℤ :=
  let s := pyStrip s.data
  if s = [] then []
  else
    let out :=
      (splitComma s).foldl
        (fun out p =>
          let p := pyStrip p
          if p = [] then out
          else
            match pyParseInt? p with
            | some n => out ++ [n]
            | none => out)
        []
    ((out.filter (fun d => 0 ≤ d ∧ d ≤ 6)).dedup).foldr insertSorted []

/-- `metrics.is_due_on`: `daily` is always due, `weekdays` is due on
weekday indices `< 5`, `custom` is due when the weekday index is in the
parsed custom-day set, and any other `schedule_type` string is due
(fail-open default). -/
def is_due_on (habit : Habit) (d : ℤ) : Bool :=
  let st := habit.schedule_type
  if st = "daily" then true
  else if st = "weekdays" then pyWeekday d < 5
  else if st = "custom" then pyWeekday d ∈ parse_custom_days habit.custom_days
  else true

/-- `metrics.daterange`: inclusive day range from `start` to `end_`
(empty when `start > end_`). -/
def daterange (start end_ : ℤ) : List ℤ :=
  (List.range (end_ + 1 - start).toNat).map (fun i : ℕ => start + (i : ℤ))

/-- `metrics.due_days_for_habit`: the due days of a habit inside an
inclusive range. -/
def due_days_for_habit (habit : Habit) (start end_ : ℤ) : List ℤ :=
  (daterange start end_).filter (fun d => is_due_on habit d)

/-- The dictionary `{c["day"]: int(c.get("done", 0)) for c in checkins}`
of `metrics.checkin_lookup`, queried with default `None`: the value of the
last check-in with the given day, or `none` when the key is absent. -/
def checkin_lookup? (checkins : List Checkin) (day : ℤ) : Option ℤ :=
  ((checkins.filter (fun c => c.day = day)).getLast?).map (fun c => c.done)

/-- `metrics.checkin_lookup`'s dictionary queried as `lookup.get(key, 0)`,
the form used by the streak and rate functions. -/
def checkin_lookup (checkins : List Checkin) (day : ℤ) : ℤ :=
  (checkin_lookup? checkins day).getD 0

/-- The `while True` loop of `metrics.current_streak`, with an explicit fuel
parameter standing for the number of iterations still allowed; `none` models
an iteration budget that ran out (i.e. would witness nontermination if no
finite fuel sufficed).  Each iteration: a non-due day steps back one day and
returns `0` if the walk has drifted more than 60 days behind `today` while
the streak is still `0`; a due day with a done check-in extends the streak
and steps back; a due day without one breaks with the streak so far. -/
def streakLoop (habit : Habit) (lk : ℤ → ℤ) (today : ℤ) :
    ℕ → ℕ → ℤ → Option ℕ
  | 0, _, _ => none
  | fuel + 1, streak, cur =>
    if ¬ is_due_on habit cur then
      if streak = 0 ∧ today - (cur - 1) > 60 then some 0
      else streakLoop habit lk today fuel streak (cur - 1)
    else if lk cur = 1 then
      streakLoop habit lk today fuel (streak + 1) (cur - 1)
    else some streak

/-- Smallest `day` among the recorded check-ins, and at most `today`
(used only to size the fuel of `current_streak`). -/
def minCheckinDay (checkins : List Checkin) (today : ℤ) : ℤ :=
  checkins.foldr (fun c m => min c.day m) today

/-- A day strictly below every recorded check-in and more than 61 days
before `today`: below this point the backward walk of `current_streak` can
only break or hit the 60-day guard. -/
def streakLow (checkins : List Checkin) (today : ℤ) : ℤ :=
  min (minCheckinDay checkins today) (today - 62) - 1

/-- Iteration budget that provably suffices for the backward walk of
`current_streak` (see `current_streak` termination below). -/
def streakFuel (checkins : List Checkin) (today : ℤ) : ℕ :=
  8 * ((today - streakLow checkins today).toNat + 1) + 62

/-- `metrics.current_streak`: count of consecutive due days ending at
`today` that are marked done, walking backwards.  The Python `while True`
loop is run with the sufficient fuel `streakFuel`; `some n` is the returned
value, `none` would be nontermination. -/
def current_streak (habit : Habit) (checkins : List Checkin) (today : ℤ) :
    Option ℕ :=
  streakLoop habit (checkin_lookup checkins) today
    (streakFuel checkins today) 0 today

/-- One iteration of the `for d in daterange(start, end)` loop of
`metrics.longest_streak` on the state `(longest, cur_streak)`: skip a
non-due day, extend the running streak and update the maximum on a due day
marked done, reset the running streak on a due day not marked done. -/
def lsStep (habit : Habit) (lk : ℤ → ℤ) (acc : ℕ × ℕ) (d : ℤ) : ℕ × ℕ :=
  if ¬ is_due_on habit d then acc
  else if lk d = 1 then (max acc.1 (acc.2 + 1), acc.2 + 1)
  else (acc.1, 0)

/-- `metrics.longest_streak`: maximum run of consecutive due-and-done days
inside the inclusive range, scanned forward. -/
def longest_streak (habit : Habit) (checkins : List Checkin)
    (start end_ : ℤ) : ℕ :=
  ((daterange start end_).foldl (lsStep habit (checkin_lookup checkins))
    (0, 0)).1

/-- `metrics.success_rate`: `done / due` over the inclusive window, and
`0.0` when the window has no due days.  The float division of the two small
nonnegative counts is modelled exactly in `ℚ`. -/
def success_rate (habit : Habit) (checkins : List Checkin)
    (start end_ : ℤ) : ℚ :=
  let due := due_days_for_habit habit start end_
  if due = [] then 0
  else
    let lk := checkin_lookup checkins
    let done := (due.filter (fun d => lk d = 1)).length
    (done : ℚ) / (due.length : ℚ)

/-- One row of the calendar heat-map dataframe of `metrics.heatmap_frame`.
`day_num` models `d.day if (month_start <= d <= month_end) else None` as
the offset from `month_start` plus one, which equals the calendar
day-of-month whenever `month_start` is the first day of the month — the
only way the repository calls `heatmap_frame`. -/
structure HeatCell where
  day : ℤ
  day_num : Option ℤ
  done : Option ℤ
  due : ℕ
  dow : ℤ
  week : ℤ
deriving DecidableEq, Repr

/-- `metrics.heatmap_frame`: calendar grid for one month, week-aligned to
the Monday on or before `month_start` and running through `month_end`.
A cell is due only when the habit is due that day *and* the day lies inside
the month; `done` is the dictionary lookup with default `None` on due
cells and `None` elsewhere. -/
def heatmap_frame (habit : Habit) (checkins : List Checkin)
    (month_start month_end : ℤ) : List HeatCell :=
  let first_monday := month_start - pyWeekday month_start
  (daterange first_monday month_end).map (fun d =>
    let due : ℕ :=
      if is_due_on habit d ∧ month_start ≤ d ∧ d ≤ month_end then 1 else 0
    { day := d
      day_num :=
        if month_start ≤ d ∧ d ≤ month_end then some (d - month_start + 1)
        else none
      done := if due = 1 then checkin_lookup? checkins d else none
      due := due
      dow := pyWeekday d
      week := (d - first_monday) / 7 })

/-- One row of the per-day month frame of
`Habit_Tracker.daily_progress_frame`. -/
structure DayRow where
  day : ℤ
  due : ℕ
  done : ℕ
  cum_due : ℕ
  cum_done : ℕ
  completion_rate : ℚ
deriving DecidableEq, Repr

/-- The habits passed to `daily_progress_frame`, each paired with its
check-ins as loaded by `load_checkins_for_habit`. -/
abbrev HabitData := List (Habit × List Checkin)

/-- `due_counts[day]` of `daily_progress_frame`: how many of the habits are
due on `d`. -/
def due_count (habits : HabitData) (d : ℤ) : ℕ :=
  (habits.filter (fun hc => is_due_on hc.1 d)).length

/-- `done_counts[day]` of `daily_progress_frame`: how many of the habits
are due on `d` and have a done check-in recorded for `d`. -/
def done_count (habits : HabitData) (d : ℤ) : ℕ :=
  (habits.filter
    (fun hc => is_due_on hc.1 d ∧ checkin_lookup hc.2 d = 1)).length

/-- One day of `daily_progress_frame`: append the day's row, carrying the
cumulative sums (`cumsum` columns) in the accumulator; `completion_rate`
is `done / due` or `0.0` when nothing is due that day. -/
def dpfStep (habits : HabitData) (acc : List DayRow × ℕ × ℕ) (d : ℤ) :
    List DayRow × ℕ × ℕ :=
  let du := due_count habits d
  let dn := done_count habits d
  let cd := acc.2.1 + du
  let cn := acc.2.2 + dn
  (acc.1 ++ [{ day := d, due := du, done := dn, cum_due := cd, cum_done := cn
               completion_rate := if du = 0 then 0 else (dn : ℚ) / (du : ℚ) }],
   cd, cn)

/-- `Habit_Tracker.daily_progress_frame`: per-day due/done counts over the
month with cumulative totals and a per-day completion rate. -/
def daily_progress_frame (habits : HabitData)
    (month_start month_end : ℤ) : List DayRow :=
  ((daterange month_start month_end).foldl (dpfStep habits) ([], 0, 0)).1

/-! ## The SQLite layer (`db.py`)

Rows are modelled as records, tables as lists of rows, `AUTOINCREMENT`
columns by a next-id counter.  A crucial point of SQLite semantics:
foreign-key enforcement (and therefore `ON DELETE CASCADE`) is a
*per-connection* setting that defaults to OFF.  `db.connect` never issues
`PRAGMA foreign_keys = ON`; `init_db` issues it only on its own connection,
which is closed when `init_db` returns.  Every CRUD helper opens a fresh
connection, so every operation effectively runs with foreign keys OFF. -/

/-- A row of the `habits` table. -/
structure HabitRow where
  id : ℕ
  name : String
  description : String
  schedule_type : String
  custom_days : String
  created_at : String
deriving DecidableEq, Repr

/-- A row of the `checkins` table. -/
structure CheckinRow where
  id : ℕ
  habit_id : ℕ
  day : String
  done : ℤ
  note : String
  created_at : String
deriving DecidableEq, Repr

/-- The persistent store: the `habits` and `checkins` tables plus their
`AUTOINCREMENT` counters (the `settings` table plays no role in the claims
about habits and check-ins). -/
structure DBState where
  habits : List HabitRow
  checkins : List CheckinRow
  next_habit_id : ℕ
  next_checkin_id : ℕ
deriving DecidableEq, Repr

/-- Whether the connection executing a CRUD helper enforces foreign keys.
SQLite defaults to OFF per connection and `db.connect` never turns it on
(`init_db`'s `PRAGMA foreign_keys = ON` dies with `init_db`'s own
connection). -/
def connection_foreign_keys : Bool := false

/-- The store right after `init_db` on a fresh database file. -/
def empty_db : DBState := ⟨[], [], 1, 1⟩

/-- `db.create_habit`: insert a habit row with stripped name, description
and custom days; `none` models the `IntegrityError` raised by the
`UNIQUE(name)` constraint. -/
def create_habit (name description schedule_type custom_days
    created_at : String) (db : DBState) : Option DBState :=
  if db.habits.any (fun h => h.name = pyStripStr name) then none
  else
    some { db with
      habits := db.habits ++
        [⟨db.next_habit_id, pyStripStr name, pyStripStr description,
          schedule_type, pyStripStr custom_days, created_at⟩]
      next_habit_id := db.next_habit_id + 1 }

/-- `db.delete_habit`: `DELETE FROM habits WHERE id = ?`.  The declared
`ON DELETE CASCADE` fires only when the connection enforces foreign keys,
which `connection_foreign_keys` records. -/
def delete_habit (habit_id : ℕ) (db : DBState) : DBState :=
  { db with
    habits := db.habits.filter (fun h => ¬ h.id = habit_id)
    checkins :=
      if connection_foreign_keys then
        db.checkins.filter (fun c => ¬ c.habit_id = habit_id)
      else db.checkins }

/-- `db.upsert_checkin`: `INSERT ... ON CONFLICT(habit_id, day) DO UPDATE
SET done, note`.  On conflict the conflicting row (unique under the
`UNIQUE(habit_id, day)` constraint) keeps its `id` and `created_at` and
takes the new `done` and stripped `note`; otherwise a fresh row is
inserted. -/
def upsert_checkin (habit_id : ℕ) (day : String) (done : Bool)
    (note : String) (created_at : String) (db : DBState) : DBState :=
  if db.checkins.any (fun c => c.habit_id = habit_id ∧ c.day = day) then
    { db with
      checkins := db.checkins.map (fun c =>
        if c.habit_id = habit_id ∧ c.day = day then
          { c with done := if done then 1 else 0, note := pyStripStr note }
        else c) }
  else
    { db with
      checkins := db.checkins ++
        [⟨db.next_checkin_id, habit_id, day, if done then 1 else 0,
          pyStripStr note, created_at⟩]
      next_checkin_id := db.next_checkin_id + 1 }

/-- A row of the result of `db.list_checkins_for_habit`
(`SELECT day, done, note`). -/
structure CheckinView where
  day : String
  done : ℤ
  note : String
deriving DecidableEq, Repr

/-- Codepoint-wise lexicographic comparison of strings as character lists,
modelling SQLite's BINARY collation on the ASCII `day` strings. -/
def charListLE : List Char → List Char → Bool
  | [], _ => true
  | _ :: _, [] => false
  | a :: as, b :: bs => if a = b then charListLE as bs else a < b

/-- Insertion by ascending `day`, modelling the `ORDER BY day` of
`list_checkins_for_habit`. -/
def insertByDay (a : CheckinView) : List CheckinView → List CheckinView
  | [] => [a]
  | b :: l =>
    if charListLE a.day.data b.day.data then a :: b :: l
    else b :: insertByDay a l

/-- `db.list_checkins_for_habit`: the check-in rows of one habit,
`ORDER BY day`. -/
def list_checkins_for_habit (habit_id : ℕ) (db : DBState) :
    List CheckinView :=
  ((db.checkins.filter (fun c => c.habit_id = habit_id)).map
    (fun c => ⟨c.day, c.done, c.note⟩)).foldr insertByDay []

/-- The `UNIQUE(habit_id, day)` constraint of the `checkins` table as a
predicate on the store. -/
def UniquePairs (db : DBState) : Prop :=
  db.checkins.Pairwise (fun a b => ¬ (a.habit_id = b.habit_id ∧ a.day = b.day))

/-- The store produced by `create_habit("Run", ...)` on a fresh database. -/
def c1_db : DBState :=
  (create_habit "Run" "" "daily" "" "t0" empty_db).getD empty_db

/-- `is_due_on` as a function of the weekday index alone (its body reads
the date only through `d.weekday()`). -/
def is_due_w (h : Habit) (w : ℤ) : Bool :=
  if h.schedule_type = "daily" then true
  else if h.schedule_type = "weekdays" then w < 5
  else if h.schedule_type = "custom" then w ∈ parse_custom_days h.custom_days
  else true

/-- The habit's schedule makes some weekday due at all. -/
def someDue (h : Habit) : Prop :=
  ∃ w : ℤ, 0 ≤ w ∧ w < 7 ∧ is_due_w h w = true

/-! ## General lemmas about the date and schedule helpers -/

theorem mem_daterange {s e d : ℤ} : d ∈ daterange s e ↔ s ≤ d ∧ d ≤ e := by
  constructor
  · intro hd
    obtain ⟨i, hi, heq⟩ := List.mem_map.mp hd
    have hi' := List.mem_range.mp hi
    have heq' : s + (i : ℤ) = d := heq
    omega
  · intro hse
    refine List.mem_map.mpr ⟨(d - s).toNat, List.mem_range.mpr (by omega), ?_⟩
    show s + (((d - s).toNat : ℕ) : ℤ) = d
    omega

theorem is_due_on_daily {h : Habit} (hst : h.schedule_type = "daily")
    (d : ℤ) : is_due_on h d = true := by
  simp [is_due_on, hst]

theorem is_due_on_custom {h : Habit} (hst : h.schedule_type = "custom")
    (d : ℤ) :
    is_due_on h d = decide (pyWeekday d ∈ parse_custom_days h.custom_days) := by
  simp [is_due_on, hst]

/-! ## C2: permissive custom-day parsing -/

theorem mem_insertSorted {a b : ℤ} {l : List ℤ} :
    a ∈ insertSorted b l ↔ a = b ∨ a ∈ l := by
  induction l with
  | nil => simp [insertSorted]
  | cons c l ih =>
    unfold insertSorted
    by_cases hcb : b ≤ c
    · simp only [if_pos hcb, List.mem_cons]
    · simp only [if_neg hcb, List.mem_cons, ih]
      tauto

theorem mem_foldr_insertSorted {a : ℤ} {l acc : List ℤ} :
    a ∈ l.foldr insertSorted acc ↔ a ∈ l ∨ a ∈ acc := by
  induction l with
  | nil => simp
  | cons c l ih =>
    simp only [List.foldr_cons, mem_insertSorted, ih, List.mem_cons]
    tauto

/-- C2: the claim that *both* parsers drop out-of-range integer tokens is
false for `metrics.parse_custom_days`: parsing the string `"7"` yields the
set `{7}`, which is not a subset of `{0,...,6}`. -/
theorem C2_counterexample_parse_keeps_out_of_range :
    ¬ (∀ d ∈ parse_custom_days "7", 0 ≤ d ∧ d ≤ 6) := by
  decide

/-- C2 (amended): `metrics.parse_custom_days` skips only non-integer
tokens and keeps integers outside `0..6`; it is `pages/1_Habits.string_to_days`
that additionally drops out-of-range integers, so its result — the weekday
list the habit editor stores — is always a subset of `{0,...,6}`. -/
theorem C2_string_to_days_in_range :
    ∀ (s : String) (d : ℤ), d ∈ string_to_days s → 0 ≤ d ∧ d ≤ 6 := by
  intro s d hd
  unfold string_to_days at hd
  by_cases hs : pyStrip s.data = []
  · rw [if_pos hs] at hd
    simp at hd
  · rw [if_neg hs] at hd
    rcases mem_foldr_insertSorted.mp hd with hd' | hd'
    · have := (List.mem_filter.mp (List.mem_dedup.mp hd')).2
      exact of_decide_eq_true this
    · simp at hd'

theorem C2_string_to_days_in_range_witness :
    (1 : ℤ) ∈ string_to_days "7,1" ∧ (0 ≤ (1 : ℤ) ∧ (1 : ℤ) ≤ 6) :=
  ⟨by decide, C2_string_to_days_in_range "7,1" 1 (by decide)⟩

/-! ## C5: the `custom` schedule -/

/-- C5: for a `custom` habit, `is_due_on` holds exactly when the day's
weekday index belongs to the parsed weekday set; an empty parsed set means
never due; and for the set `{0,2,4}` the habit is due exactly on Mondays,
Wednesdays and Fridays. -/
theorem C5_custom_is_due :
    ∀ (h : Habit) (d : ℤ), h.schedule_type = "custom" →
      ((is_due_on h d = true) ↔ pyWeekday d ∈ parse_custom_days h.custom_days)
      ∧ (parse_custom_days h.custom_days = [] → is_due_on h d = false)
      ∧ (is_due_on ⟨"custom", "0,2,4"⟩ d = true ↔
          (pyWeekday d = 0 ∨ pyWeekday d = 2 ∨ pyWeekday d = 4)) := by
  intro h d hst
  have hset : parse_custom_days "0,2,4" = [4, 2, 0] := by decide
  refine ⟨?_, ?_, ?_⟩
  · rw [is_due_on_custom hst]
    simp
  · intro hempty
    rw [is_due_on_custom hst, hempty]
    simp
  · rw [is_due_on_custom (h := ⟨"custom", "0,2,4"⟩) rfl]
    show decide (pyWeekday d ∈ parse_custom_days "0,2,4") = true ↔ _
    rw [hset]
    simp only [decide_eq_true_eq, List.mem_cons, List.mem_singleton,
      List.not_mem_nil, or_false]
    tauto

theorem C5_custom_is_due_witness :
    (Habit.mk "custom" "0,2,4").schedule_type = "custom" ∧
      ((is_due_on ⟨"custom", "0,2,4"⟩ 8 = true) ↔
        pyWeekday 8 ∈ parse_custom_days "0,2,4") :=
  ⟨rfl, (C5_custom_is_due ⟨"custom", "0,2,4"⟩ 8 rfl).1⟩

/-! ## C4: success rate -/

/-- C4: `success_rate` is `0` on a window without due days, is the exact
ratio of done due days to due days otherwise, and always lies in `[0, 1]`
(and, being a total function into `ℚ`, never raises). -/
theorem C4_success_rate_safe :
    ∀ (h : Habit) (cks : List Checkin) (s e : ℤ),
      (due_days_for_habit h s e = [] → success_rate h cks s e = 0)
      ∧ (due_days_for_habit h s e ≠ [] →
          success_rate h cks s e * ((due_days_for_habit h s e).length : ℚ) =
            (((due_days_for_habit h s e).filter
              (fun d => checkin_lookup cks d = 1)).length : ℚ))
      ∧ 0 ≤ success_rate h cks s e ∧ success_rate h cks s e ≤ 1 := by
  intro h cks s e
  unfold success_rate
  by_cases hdue : due_days_for_habit h s e = []
  · simp [hdue]
  · have hlen : 0 < (due_days_for_habit h s e).length :=
      List.length_pos.mpr hdue
    have hlenQ : (0 : ℚ) < ((due_days_for_habit h s e).length : ℚ) := by
      exact_mod_cast hlen
    have hfilter :
        (((due_days_for_habit h s e).filter
          (fun d => checkin_lookup cks d = 1)).length : ℚ) ≤
          ((due_days_for_habit h s e).length : ℚ) := by
      exact_mod_cast List.length_filter_le _ _
    refine ⟨fun hc => absurd hc hdue, fun _ => ?_, ?_, ?_⟩
    · simp only [hdue, if_false]
      exact div_mul_cancel₀ _ (ne_of_gt hlenQ)
    · simp only [hdue, if_false]
      positivity
    · simp only [hdue, if_false]
      exact div_le_one_of_le₀ hfilter (le_of_lt hlenQ)

theorem C4_success_rate_safe_witness :
    (due_days_for_habit ⟨"daily", ""⟩ 1 0 = [] ∧
      success_rate ⟨"daily", ""⟩ [] 1 0 = 0)
    ∧ (due_days_for_habit ⟨"daily", ""⟩ 3 3 ≠ [] ∧
        success_rate ⟨"daily", ""⟩ [⟨3, 1⟩] 3 3 *
            ((due_days_for_habit ⟨"daily", ""⟩ 3 3).length : ℚ) =
          (((due_days_for_habit ⟨"daily", ""⟩ 3 3).filter
            (fun d => checkin_lookup [⟨3, 1⟩] d = 1)).length : ℚ)) :=
  ⟨⟨by decide, (C4_success_rate_safe ⟨"daily", ""⟩ [] 1 0).1 (by decide)⟩,
    ⟨by decide, (C4_success_rate_safe ⟨"daily", ""⟩ [⟨3, 1⟩] 3 3).2.1
      (by decide)⟩⟩

/-! ## C6: longest streak -/

/-- C6: `longest_streak` is the forward fold of `lsStep` over the inclusive
range, whose step skips non-due days unchanged, extends the running counter
and the maximum on due days marked done, and resets the running counter on
due days not marked done; on the weekdays habit with Mon/Tue done, Wed
missed, Thu/Fri done it returns 2. -/
theorem C6_longest_streak_scan :
    ∀ (h : Habit) (lk : ℤ → ℤ) (acc : ℕ × ℕ) (d : ℤ)
      (cks : List Checkin) (s e : ℤ),
      longest_streak h cks s e =
        ((daterange s e).foldl (lsStep h (checkin_lookup cks)) (0, 0)).1
      ∧ (is_due_on h d = false → lsStep h lk acc d = acc)
      ∧ (is_due_on h d = true → lk d = 1 →
          lsStep h lk acc d = (max acc.1 (acc.2 + 1), acc.2 + 1))
      ∧ (is_due_on h d = true → lk d ≠ 1 → lsStep h lk acc d = (acc.1, 0))
      ∧ longest_streak ⟨"weekdays", ""⟩ [⟨8, 1⟩, ⟨9, 1⟩, ⟨11, 1⟩, ⟨12, 1⟩]
          8 14 = 2 := by
  intro h lk acc d cks s e
  refine ⟨rfl, ?_, ?_, ?_, by decide⟩
  · intro hnd
    simp [lsStep, hnd]
  · intro hd hlk
    simp [lsStep, hd, hlk]
  · intro hd hlk
    simp [lsStep, hd, hlk]

theorem C6_longest_streak_scan_witness :
    (is_due_on ⟨"daily", ""⟩ 8 = true ∧ (fun _ : ℤ => (1 : ℤ)) 8 = 1) ∧
      lsStep ⟨"daily", ""⟩ (fun _ => 1) (0, 0) 8 = (1, 1) :=
  ⟨⟨by decide, rfl⟩,
    (C6_longest_streak_scan ⟨"daily", ""⟩ (fun _ => 1) (0, 0) 8 [] 0 0).2.2.1
      (by decide) rfl⟩

/-! ## C9: the heat-map calendar grid -/

/-- C9: the grid of `heatmap_frame` runs exactly from the Monday on or
before `month_start` through `month_end` (that start day is a Monday and
lies at most six days before `month_start`), and every cell outside the
month is not due and carries no done value, whatever the habit's
schedule. -/
theorem C9_heatmap_grid :
    ∀ (h : Habit) (cks : List Checkin) (ms me : ℤ),
      (heatmap_frame h cks ms me).map (fun c => c.day) =
        daterange (ms - pyWeekday ms) me
      ∧ pyWeekday (ms - pyWeekday ms) = 0
      ∧ ms - 7 < ms - pyWeekday ms ∧ ms - pyWeekday ms ≤ ms
      ∧ ∀ cell ∈ heatmap_frame h cks ms me, (cell.day < ms ∨ me < cell.day) →
          cell.due = 0 ∧ cell.done = none := by
  intro h cks ms me
  refine ⟨?_, by unfold pyWeekday; omega, by unfold pyWeekday; omega,
    by unfold pyWeekday; omega, ?_⟩
  · unfold heatmap_frame
    rw [List.map_map]
    exact List.map_id _
  · intro cell hcell hout
    unfold heatmap_frame at hcell
    rcases List.mem_map.mp hcell with ⟨d, _, rfl⟩
    simp only at hout
    have hcond : ¬ (is_due_on h d = true ∧ ms ≤ d ∧ d ≤ me) := by
      rcases hout with h1 | h1 <;> · intro ⟨_, h2, h3⟩; omega
    constructor
    · simp only [if_neg hcond]
    · simp only [if_neg hcond]
      norm_num

theorem C9_heatmap_grid_witness :
    (HeatCell.mk 8 none none 0 0 0) ∈ heatmap_frame ⟨"daily", ""⟩ [] 10 16 ∧
      ((8 : ℤ) < 10 ∨ (16 : ℤ) < 8) ∧
      ((HeatCell.mk 8 none none 0 0 0).due = 0 ∧
        (HeatCell.mk 8 none none 0 0 0).done = none) :=
  ⟨by decide, Or.inl (by decide),
    (C9_heatmap_grid ⟨"daily", ""⟩ [] 10 16).2.2.2.2 _ (by decide)
      (Or.inl (by decide))⟩

/-! ## C8: month aggregation for a fully completed daily habit -/

theorem dpfStep_fst (habits : HabitData) (acc : List DayRow × ℕ × ℕ)
    (d : ℤ) :
    (dpfStep habits acc d).1 = acc.1 ++
      [⟨d, due_count habits d, done_count habits d,
        acc.2.1 + due_count habits d, acc.2.2 + done_count habits d,
        if due_count habits d = 0 then 0
        else (done_count habits d : ℚ) / (due_count habits d : ℚ)⟩] := rfl

theorem dpf_fold_all_done (habits : HabitData) :
    ∀ (days : List ℤ) (acc : List DayRow × ℕ × ℕ),
      (∀ d ∈ days, due_count habits d = done_count habits d ∧
        due_count habits d ≠ 0) →
      (∀ r ∈ acc.1, r.cum_done = r.cum_due ∧ r.completion_rate = 1) →
      acc.2.1 = acc.2.2 →
      ∀ r ∈ (days.foldl (dpfStep habits) acc).1,
        r.cum_done = r.cum_due ∧ r.completion_rate = 1 := by
  intro days
  induction days with
  | nil =>
    intro acc _ h2 _ r hr
    exact h2 r hr
  | cons d days ih =>
    intro acc h1 h2 h3 r hr
    rw [List.foldl_cons] at hr
    have hd := h1 d (List.mem_cons_self _ _)
    refine ih (dpfStep habits acc d)
      (fun x hx => h1 x (List.mem_cons_of_mem _ hx)) ?_ ?_ r hr
    · intro x hx
      rw [dpfStep_fst] at hx
      rcases List.mem_append.mp hx with hx | hx
      · exact h2 x hx
      · rw [List.mem_singleton] at hx
        subst hx
        refine ⟨by simp [h3, hd.1], ?_⟩
        show (if due_count habits d = 0 then 0
          else (done_count habits d : ℚ) / (due_count habits d : ℚ)) = 1
        rw [if_neg hd.2, ← hd.1]
        exact div_self (by exact_mod_cast hd.2)
    · show (dpfStep habits acc d).2.1 = (dpfStep habits acc d).2.2
      show acc.2.1 + due_count habits d = acc.2.2 + done_count habits d
      rw [h3, hd.1]

/-- C8: for a single daily habit with a done check-in on every day of the
month, every row of the per-day month frame has equal cumulative done and
due counts (in particular on the month's last day) and completion rate
`1.0` on every day. -/
theorem C8_month_frame_all_done :
    ∀ (h : Habit) (cks : List Checkin) (s e : ℤ),
      h.schedule_type = "daily" →
      (∀ d, s ≤ d → d ≤ e → checkin_lookup cks d = 1) →
      ∀ r ∈ daily_progress_frame [(h, cks)] s e,
        r.cum_done = r.cum_due ∧ r.completion_rate = 1 := by
  intro h cks s e hdaily hall
  unfold daily_progress_frame
  refine dpf_fold_all_done [(h, cks)] (daterange s e) ([], 0, 0)
    ?_ (by simp) rfl
  intro d hd
  obtain ⟨hd1, hd2⟩ := mem_daterange.mp hd
  have hdue : due_count [(h, cks)] d = 1 := by
    simp [due_count, is_due_on_daily hdaily]
  have hdone : done_count [(h, cks)] d = 1 := by
    simp [done_count, is_due_on_daily hdaily, hall d hd1 hd2]
  rw [hdue, hdone]
  exact ⟨rfl, one_ne_zero⟩

theorem C8_month_frame_all_done_witness :
    (Habit.mk "daily" "").schedule_type = "daily" ∧
      (DayRow.mk 0 1 1 1 1 (((1 : ℕ) : ℚ) / ((1 : ℕ) : ℚ))) ∈
        daily_progress_frame [(⟨"daily", ""⟩, [⟨0, 1⟩])] 0 0 ∧
      ((DayRow.mk 0 1 1 1 1 (((1 : ℕ) : ℚ) / ((1 : ℕ) : ℚ))).cum_done =
          (DayRow.mk 0 1 1 1 1 (((1 : ℕ) : ℚ) / ((1 : ℕ) : ℚ))).cum_due ∧
        (DayRow.mk 0 1 1 1 1
          (((1 : ℕ) : ℚ) / ((1 : ℕ) : ℚ))).completion_rate = 1) :=
  ⟨rfl, List.Mem.head _,
    C8_month_frame_all_done ⟨"daily", ""⟩ [⟨0, 1⟩] 0 0 rfl
      (by intro d h1 h2
          have : d = 0 := by omega
          subst this
          decide)
      _ (List.Mem.head _)⟩

/-! ## C7: upsert keeps one check-in row per (habit, day) -/

theorem upsert_update_fields (hid : ℕ) (day : String) (dn : Bool)
    (nt : String) (c : CheckinRow) :
    ((if c.habit_id = hid ∧ c.day = day then
        { c with done := if dn then 1 else 0, note := pyStripStr nt }
      else c) : CheckinRow).habit_id = c.habit_id ∧
    ((if c.habit_id = hid ∧ c.day = day then
        { c with done := if dn then 1 else 0, note := pyStripStr nt }
      else c) : CheckinRow).day = c.day := by
  by_cases hc : c.habit_id = hid ∧ c.day = day
  · rw [if_pos hc]
    exact ⟨rfl, rfl⟩
  · rw [if_neg hc]
    exact ⟨rfl, rfl⟩

theorem countP_pair_le_one {l : List CheckinRow}
    (hl : l.Pairwise
      (fun a b => ¬ (a.habit_id = b.habit_id ∧ a.day = b.day)))
    (hid : ℕ) (day : String) :
    l.countP (fun c => c.habit_id = hid ∧ c.day = day) ≤ 1 := by
  induction l with
  | nil => simp
  | cons a l ih =>
    obtain ⟨ha, htl⟩ := List.pairwise_cons.mp hl
    rw [List.countP_cons]
    by_cases hpa : a.habit_id = hid ∧ a.day = day
    · have hz : l.countP (fun c => c.habit_id = hid ∧ c.day = day) = 0 := by
        refine List.countP_eq_zero.mpr ?_
        intro b hb hpb
        have hpb' : b.habit_id = hid ∧ b.day = day := of_decide_eq_true hpb
        exact ha b hb ⟨hpa.1.trans hpb'.1.symm, hpa.2.trans hpb'.2.symm⟩
      rw [hz]
      simp only [decide_eq_true hpa]
      simp
    · simp only [decide_eq_false hpa]
      simpa using ih htl

theorem upsert_preserves_unique (hid : ℕ) (day : String) (dn : Bool)
    (nt ca : String) (db : DBState) (hu : UniquePairs db) :
    UniquePairs (upsert_checkin hid day dn nt ca db) := by
  unfold upsert_checkin UniquePairs
  by_cases hany :
      db.checkins.any (fun c => c.habit_id = hid ∧ c.day = day) = true
  · rw [if_pos hany]
    refine List.Pairwise.map _ ?_ hu
    intro a b hab hcon
    obtain ⟨ua1, ua2⟩ := upsert_update_fields hid day dn nt a
    obtain ⟨ub1, ub2⟩ := upsert_update_fields hid day dn nt b
    exact hab ⟨(ua1.symm.trans hcon.1).trans ub1,
      (ua2.symm.trans hcon.2).trans ub2⟩
  · rw [if_neg hany]
    rw [List.pairwise_append]
    refine ⟨hu, List.pairwise_singleton _ _, ?_⟩
    intro a ha b hb hcon
    rw [List.mem_singleton] at hb
    subst hb
    refine hany (List.any_eq_true.mpr ⟨a, ha, ?_⟩)
    exact decide_eq_true (by exact ⟨hcon.1, hcon.2⟩)

theorem upsert_pair_count (hid : ℕ) (day : String) (dn : Bool)
    (nt ca : String) (db : DBState) (hu : UniquePairs db) :
    (upsert_checkin hid day dn nt ca db).checkins.countP
      (fun c => c.habit_id = hid ∧ c.day = day) = 1 := by
  unfold upsert_checkin
  by_cases hany :
      db.checkins.any (fun c => c.habit_id = hid ∧ c.day = day) = true
  · rw [if_pos hany]
    show (db.checkins.map _).countP _ = 1
    rw [List.countP_map]
    have hcongr : db.checkins.countP
        ((fun c : CheckinRow => decide (c.habit_id = hid ∧ c.day = day)) ∘
          (fun c => if c.habit_id = hid ∧ c.day = day then
            { c with done := if dn then 1 else 0, note := pyStripStr nt }
          else c)) = db.checkins.countP
        (fun c => c.habit_id = hid ∧ c.day = day) := by
      refine List.countP_congr ?_
      intro c _
      simp only [Function.comp, decide_eq_true_eq]
      obtain ⟨u1, u2⟩ := upsert_update_fields hid day dn nt c
      rw [u1, u2]
    rw [hcongr]
    have hle := countP_pair_le_one hu hid day
    have hpos : 0 < db.checkins.countP
        (fun c => c.habit_id = hid ∧ c.day = day) := by
      obtain ⟨c, hc, hpc⟩ := List.any_eq_true.mp hany
      exact List.countP_pos_iff.mpr ⟨c, hc, hpc⟩
    omega
  · rw [if_neg hany]
    show (db.checkins ++ [_]).countP _ = 1
    rw [List.countP_append]
    have hz : db.checkins.countP
        (fun c => c.habit_id = hid ∧ c.day = day) = 0 := by
      refine List.countP_eq_zero.mpr ?_
      intro b hb hpb
      exact hany (List.any_eq_true.mpr ⟨b, hb, hpb⟩)
    rw [hz]
    simp

/-- C7: the store keeps at most one check-in row per `(habit_id, day)`
(the `UNIQUE` constraint is preserved by `upsert_checkin`), and marking the
same day done twice is idempotent: after the second call there is exactly
one row for the pair, it has `done = 1`, and the second call updated
instead of inserting (the row count did not change). -/
theorem C7_upsert_idempotent :
    ∀ (db : DBState) (hid : ℕ) (day note₁ note₂ ca₁ ca₂ : String),
      UniquePairs db →
      UniquePairs (upsert_checkin hid day true note₂ ca₂
        (upsert_checkin hid day true note₁ ca₁ db))
      ∧ (upsert_checkin hid day true note₂ ca₂
          (upsert_checkin hid day true note₁ ca₁ db)).checkins.countP
            (fun c => c.habit_id = hid ∧ c.day = day) = 1
      ∧ (∀ c ∈ (upsert_checkin hid day true note₂ ca₂
            (upsert_checkin hid day true note₁ ca₁ db)).checkins,
          c.habit_id = hid ∧ c.day = day → c.done = 1)
      ∧ (upsert_checkin hid day true note₂ ca₂
          (upsert_checkin hid day true note₁ ca₁ db)).checkins.length =
        (upsert_checkin hid day true note₁ ca₁ db).checkins.length := by
  intro db hid day note₁ note₂ ca₁ ca₂ hu
  have hu1 := upsert_preserves_unique hid day true note₁ ca₁ db hu
  have hc1 := upsert_pair_count hid day true note₁ ca₁ db hu
  set db1 := upsert_checkin hid day true note₁ ca₁ db with hdb1
  have hany1 : db1.checkins.any
      (fun c => c.habit_id = hid ∧ c.day = day) = true := by
    have hpos : 0 < db1.checkins.countP
        (fun c => c.habit_id = hid ∧ c.day = day) := by omega
    obtain ⟨c, hc, hpc⟩ := List.countP_pos_iff.mp hpos
    exact List.any_eq_true.mpr ⟨c, hc, hpc⟩
  have hupd : upsert_checkin hid day true note₂ ca₂ db1 =
      { db1 with
        checkins := db1.checkins.map (fun c =>
          if c.habit_id = hid ∧ c.day = day then
            { c with done := (if (true : Bool) then 1 else 0), note := pyStripStr note₂ }
          else c) } := by
    unfold upsert_checkin
    rw [if_pos hany1]
  refine ⟨upsert_preserves_unique hid day true note₂ ca₂ _ hu1,
    upsert_pair_count hid day true note₂ ca₂ _ hu1, ?_, ?_⟩
  · intro c hc hpc
    rw [hupd] at hc
    obtain ⟨a, _, rfl⟩ := List.mem_map.mp hc
    by_cases hpa : a.habit_id = hid ∧ a.day = day
    · rw [if_pos hpa]
      rfl
    · rw [if_neg hpa] at hpc ⊢
      exact absurd hpc hpa
  · rw [hupd]
    exact List.length_map _ _

theorem C7_upsert_idempotent_witness :
    UniquePairs (upsert_checkin 1 "2025-01-02" true "" "t2"
      (upsert_checkin 1 "2025-01-02" true "" "t1" empty_db))
    ∧ (upsert_checkin 1 "2025-01-02" true "" "t2"
        (upsert_checkin 1 "2025-01-02" true "" "t1" empty_db)).checkins.countP
          (fun c => c.habit_id = 1 ∧ c.day = "2025-01-02") = 1 :=
  ⟨(C7_upsert_idempotent empty_db 1 "2025-01-02" "" "" "t1" "t2"
      List.Pairwise.nil).1,
    (C7_upsert_idempotent empty_db 1 "2025-01-02" "" "" "t1" "t2"
      List.Pairwise.nil).2.1⟩

/-! ## C1: delete does not actually cascade -/

/-- C1 fails on the code: the schema declares `ON DELETE CASCADE` and the
spec promises that deleting a habit removes its check-ins, but SQLite
enforces foreign keys per connection (default OFF) and `db.connect` never
issues `PRAGMA foreign_keys = ON` — `init_db` issues it on a connection
that is closed immediately after.  Concretely: create habit 1, record a
done check-in for it, delete the habit; the habit row is gone but
`list_checkins_for_habit 1` still returns the orphaned check-in instead of
the empty list. -/
theorem C1_delete_habit_leaves_orphan_checkins :
    create_habit "Run" "" "daily" "" "t0" empty_db = some c1_db
    ∧ (delete_habit 1
        (upsert_checkin 1 "2025-01-02" true "" "t1" c1_db)).habits = []
    ∧ list_checkins_for_habit 1
        (delete_habit 1 (upsert_checkin 1 "2025-01-02" true "" "t1" c1_db)) =
      [⟨"2025-01-02", 1, ""⟩]
    ∧ list_checkins_for_habit 1
        (delete_habit 1 (upsert_checkin 1 "2025-01-02" true "" "t1" c1_db)) ≠
      [] := by
  refine ⟨rfl, rfl, rfl, ?_⟩
  decide

/-! ## C3 / C10: the backward streak walk -/

theorem streakLoop_succ (h : Habit) (lk : ℤ → ℤ) (today : ℤ) (f streak : ℕ)
    (cur : ℤ) :
    streakLoop h lk today (f + 1) streak cur =
      if ¬ is_due_on h cur then
        (if streak = 0 ∧ today - (cur - 1) > 60 then some 0
         else streakLoop h lk today f streak (cur - 1))
      else if lk cur = 1 then streakLoop h lk today f (streak + 1) (cur - 1)
      else some streak := rfl

theorem is_due_on_eq_w (h : Habit) (d : ℤ) :
    is_due_on h d = is_due_w h (pyWeekday d) := rfl

theorem pyWeekday_nonneg (d : ℤ) : 0 ≤ pyWeekday d := by
  unfold pyWeekday
  omega

theorem pyWeekday_lt (d : ℤ) : pyWeekday d < 7 := by
  unfold pyWeekday
  omega

theorem not_someDue_never {h : Habit} (hns : ¬ someDue h) (d : ℤ) :
    is_due_on h d = false := by
  rw [is_due_on_eq_w]
  cases hval : is_due_w h (pyWeekday d) with
  | false => rfl
  | true =>
    exact absurd ⟨pyWeekday d, pyWeekday_nonneg d, pyWeekday_lt d, hval⟩ hns

theorem due_within_7 {h : Habit} (hs : someDue h) (cur : ℤ) :
    ∃ n : ℕ, n < 7 ∧ is_due_on h (cur - (n : ℤ)) = true := by
  obtain ⟨w, hw0, hw7, hww⟩ := hs
  refine ⟨((pyWeekday cur - w) % 7).toNat, ?_, ?_⟩
  · unfold pyWeekday
    omega
  · rw [is_due_on_eq_w]
    suffices hwd : pyWeekday (cur - (((pyWeekday cur - w) % 7).toNat : ℤ)) = w by
      rw [hwd]
      exact hww
    have hcast : ((((pyWeekday cur - w) % 7).toNat : ℕ) : ℤ) =
        (pyWeekday cur - w) % 7 :=
      Int.toNat_of_nonneg (Int.emod_nonneg _ (by omega))
    rw [hcast]
    unfold pyWeekday
    omega

theorem streakLoop_neverDue (h : Habit) (lk : ℤ → ℤ) (today : ℤ)
    (hnd : ∀ d : ℤ, is_due_on h d = false) :
    ∀ (fuel : ℕ) (cur : ℤ), 0 ≤ today - cur →
      61 - (today - cur) < (fuel : ℤ) → 0 < fuel →
      streakLoop h lk today fuel 0 cur = some 0 := by
  intro fuel
  induction fuel with
  | zero =>
    intro cur _ _ hpos
    exact absurd hpos (by omega)
  | succ f ih =>
    intro cur hge hfuel _
    rw [streakLoop_succ]
    rw [if_pos (by rw [hnd cur]; simp)]
    by_cases hguard : (0 : ℕ) = 0 ∧ today - (cur - 1) > 60
    · rw [if_pos hguard]
    · rw [if_neg hguard]
      have hsmall : today - cur ≤ 59 := by omega
      refine ih (cur - 1) (by omega) (by push_cast at hfuel ⊢; omega)
        (by omega)

theorem minCheckinDay_le (cks : List Checkin) (today : ℤ) :
    ∀ c ∈ cks, minCheckinDay cks today ≤ c.day := by
  induction cks with
  | nil => intro c hc; simp at hc
  | cons a l ih =>
    intro c hc
    rcases List.mem_cons.mp hc with rfl | hc
    · show min c.day (minCheckinDay l today) ≤ c.day
      exact min_le_left _ _
    · show min a.day (minCheckinDay l today) ≤ c.day
      exact le_trans (min_le_right _ _) (ih c hc)

theorem checkin_lookup_below {cks : List Checkin} {today : ℤ} (d : ℤ)
    (hd : d < minCheckinDay cks today) : checkin_lookup cks d = 0 := by
  unfold checkin_lookup checkin_lookup?
  have hfil : cks.filter (fun c => c.day = d) = [] := by
    refine List.filter_eq_nil_iff.mpr ?_
    intro c hc hcd
    have h1 := minCheckinDay_le cks today c hc
    have h2 : c.day = d := of_decide_eq_true hcd
    omega
  rw [hfil]
  rfl

theorem streakLoop_base (h : Habit) (lk : ℤ → ℤ) (today : ℤ) :
    ∀ (n : ℕ) (cur : ℤ) (streak fuel : ℕ),
      is_due_on h (cur - (n : ℤ)) = true →
      (∀ d : ℤ, d ≤ cur → lk d ≠ 1) →
      n < fuel →
      ∃ r, streakLoop h lk today fuel streak cur = some r := by
  intro n
  induction n with
  | zero =>
    intro cur streak fuel hdue hlk hfuel
    obtain ⟨f, rfl⟩ := Nat.exists_eq_succ_of_ne_zero (by omega : fuel ≠ 0)
    rw [streakLoop_succ]
    have hdue' : is_due_on h cur = true := by
      simpa using hdue
    rw [if_neg (by rw [hdue']; simp)]
    rw [if_neg (hlk cur le_rfl)]
    exact ⟨streak, rfl⟩
  | succ n ih =>
    intro cur streak fuel hdue hlk hfuel
    obtain ⟨f, rfl⟩ := Nat.exists_eq_succ_of_ne_zero (by omega : fuel ≠ 0)
    rw [streakLoop_succ]
    cases hcur : is_due_on h cur with
    | true =>
      rw [if_neg (by simp)]
      rw [if_neg (hlk cur le_rfl)]
      exact ⟨streak, rfl⟩
    | false =>
      rw [if_pos (by simp)]
      by_cases hguard : streak = 0 ∧ today - (cur - 1) > 60
      · rw [if_pos hguard]
        exact ⟨0, rfl⟩
      · rw [if_neg hguard]
        refine ih (cur - 1) streak f ?_ ?_ (by omega)
        · have harith : cur - 1 - (n : ℤ) = cur - ((n + 1 : ℕ) : ℤ) := by
            push_cast
            ring
          rw [harith]
          exact hdue
        · intro d hdle
          exact hlk d (by omega)

theorem streakLoop_someDue (h : Habit) (cks : List Checkin) (today : ℤ)
    (hs : someDue h) :
    ∀ (fuel streak : ℕ) (cur : ℤ),
      8 * ((cur - streakLow cks today).toNat + 1) ≤ fuel →
      ∃ r, streakLoop h (checkin_lookup cks) today fuel streak cur =
        some r := by
  intro fuel
  induction fuel with
  | zero =>
    intro streak cur hle
    exact absurd hle (by omega)
  | succ f ih =>
    intro streak cur hle
    by_cases hcur : cur ≤ streakLow cks today
    · obtain ⟨n, hn7, hdue⟩ := due_within_7 hs cur
      refine streakLoop_base h _ today n cur streak (f + 1) hdue ?_ (by omega)
      intro d hdle
      have hmin : d < minCheckinDay cks today := by
        unfold streakLow at hcur
        omega
      rw [checkin_lookup_below d hmin]
      omega
    · push_neg at hcur
      have hx : (cur - streakLow cks today).toNat =
          (cur - 1 - streakLow cks today).toNat + 1 := by omega
      rw [streakLoop_succ]
      cases hdueb : is_due_on h cur with
      | false =>
        rw [if_pos (by simp)]
        by_cases hguard : streak = 0 ∧ today - (cur - 1) > 60
        · rw [if_pos hguard]
          exact ⟨0, rfl⟩
        · rw [if_neg hguard]
          exact ih streak (cur - 1) (by omega)
      | true =>
        rw [if_neg (by simp)]
        by_cases hlk : checkin_lookup cks cur = 1
        · rw [if_pos hlk]
          exact ih (streak + 1) (cur - 1) (by omega)
        · rw [if_neg hlk]
          exact ⟨streak, rfl⟩

/-- C10: `current_streak` terminates on every input — for every habit
record, finite check-in list and date, the backward walk returns a value
within the fuel `streakFuel`: either no weekday is ever due and the 60-day
guard fires, or a due day recurs within every 7 backward steps and the walk
breaks at the latest once it has passed every recorded check-in. -/
theorem C10_current_streak_terminates :
    ∀ (h : Habit) (cks : List Checkin) (today : ℤ),
      ∃ r, current_streak h cks today = some r := by
  intro h cks today
  unfold current_streak
  by_cases hs : someDue h
  · exact streakLoop_someDue h cks today hs (streakFuel cks today) 0 today
      (by unfold streakFuel; omega)
  · refine ⟨0, ?_⟩
    refine streakLoop_neverDue h (checkin_lookup cks) today
      (not_someDue_never hs) (streakFuel cks today) today (by omega) ?_ ?_
    · unfold streakFuel
      push_cast
      omega
    · unfold streakFuel
      omega

/-- C3: whenever the backward walk reaches a non-due day with zero
accumulated streak and has moved more than 60 days before `today`, it
returns `0`; consequently a habit whose schedule makes no day due — e.g. a
`custom` habit whose parsed weekday set is empty — has
`current_streak = 0` for every check-in list and date. -/
theorem C3_streak_guard_no_due_days :
    ∀ (h : Habit) (cks : List Checkin) (today : ℤ),
      (∀ (lk : ℤ → ℤ) (fuel streak : ℕ) (cur : ℤ),
        is_due_on h cur = false → streak = 0 → today - (cur - 1) > 60 →
        streakLoop h lk today (fuel + 1) streak cur = some 0)
      ∧ ((∀ d : ℤ, is_due_on h d = false) →
          current_streak h cks today = some 0)
      ∧ (h.schedule_type = "custom" → parse_custom_days h.custom_days = [] →
          current_streak h cks today = some 0) := by
  intro h cks today
  have hmain : (∀ d : ℤ, is_due_on h d = false) →
      current_streak h cks today = some 0 := by
    intro hnd
    unfold current_streak
    refine streakLoop_neverDue h (checkin_lookup cks) today hnd
      (streakFuel cks today) today (by omega) ?_ ?_
    · unfold streakFuel
      push_cast
      omega
    · unfold streakFuel
      omega
  refine ⟨?_, hmain, ?_⟩
  · intro lk fuel streak cur hdue hstreak hguard
    rw [streakLoop_succ]
    rw [if_pos (by rw [hdue]; simp)]
    rw [if_pos ⟨hstreak, hguard⟩]
  · intro hcustom hempty
    refine hmain ?_
    intro d
    rw [is_due_on_custom hcustom, hempty]
    simp

theorem C3_streak_guard_no_due_days_witness :
    (is_due_on ⟨"custom", ""⟩ 100 = false ∧ (0 : ℕ) = 0 ∧
      (200 : ℤ) - (100 - 1) > 60 ∧
      streakLoop ⟨"custom", ""⟩ (fun _ => 0) 200 1 0 100 = some 0)
    ∧ ((⟨"custom", ""⟩ : Habit).schedule_type = "custom" ∧
        parse_custom_days "" = [] ∧
        current_streak ⟨"custom", ""⟩ [] 200 = some 0) :=
  ⟨⟨by decide, rfl, by decide,
    (C3_streak_guard_no_due_days ⟨"custom", ""⟩ [] 200).1 (fun _ => 0) 0 0 100
      (by decide) rfl (by decide)⟩,
   ⟨rfl, by decide,
    (C3_streak_guard_no_due_days ⟨"custom", ""⟩ [] 200).2.2 rfl (by decide)⟩⟩

end HabitTracker
